import Mathlib

/-!
Shallow embedding of the Route reconciliation subsystem:
 - `pkg/reconciler/route/domains/domains.go` (hostname and domain resolution
   from templates),
 - the visibility resolver (`pkg/reconciler/route/visibility`),
 - `pkg/reconciler/route/reconcile_resources.go` (ingress / placeholder
   service / endpoint-mirror / revision-pin reconciliation).

Go maps `map[string]string` are represented as association lists with
first-match lookup; Go's cached resource store is an immutable snapshot
(a list per object kind); every store mutation the code issues is recorded
as an explicit `Write` value instead of being applied; fallible Go code
returns `Except RErr`; a Go panic is a distinguished error value.
-/

/-- Lookup in an association list representing a Go `map[string]string`:
the first binding for the key wins. -/
def lookupStr : List (String × String) → String → Option String
  | [], _ => none
  | (k, v) :: rest, key => if k = key then some v else lookupStr rest key

/-- Go map indexing `m[k]`: a missing key yields the zero value `""`. -/
def mapIdx (m : List (String × String)) (k : String) : String :=
  (lookupStr m k).getD ""

/-- Semantic equality of two Go string maps (`equality.Semantic.DeepEqual`
on maps): the two association lists denote the same key-to-value function. -/
def mapEq (m1 m2 : List (String × String)) : Bool :=
  m1.all (fun kv => decide (lookupStr m2 kv.1 = lookupStr m1 kv.1)) &&
  m2.all (fun kv => decide (lookupStr m1 kv.1 = lookupStr m2 kv.1))

/-- Lexicographic comparison of character lists (helper for `strLeB`). -/
def charListLe : List Char → List Char → Bool
  | [], _ => true
  | _ :: _, [] => false
  | a :: as, b :: bs =>
    if a.toNat < b.toNat then true
    else if b.toNat < a.toNat then false
    else charListLe as bs

/-- Lexicographic string comparison, as Go's sort over string slices. -/
def strLeB (a b : String) : Bool :=
  charListLe a.data b.data

/-- Insert a string into a sorted list of strings (helper for `sortStrings`). -/
def insertSorted (x : String) : List String → List String
  | [] => [x]
  | y :: ys => if strLeB x y then x :: y :: ys else y :: insertSorted x ys

/-- Sort a list of strings ascending, as `sets.String.List()` does in Go. -/
def sortStrings (l : List String) : List String :=
  l.foldr insertSorted []

/-- A Go `sets.String` built from a list, iterated via `List()`:
deduplicated and sorted ascending. -/
def setList (l : List String) : List String :=
  sortStrings l.dedup

/-- Split a character list at `'.'` (helper for `splitDots`); `acc` holds the
characters of the current component in reverse. -/
def splitDotsAux : List Char → List Char → List String
  | [], acc => [String.mk acc.reverse]
  | c :: rest, acc =>
    if c = '.' then String.mk acc.reverse :: splitDotsAux rest []
    else splitDotsAux rest (c :: acc)

/-- Go's `strings.Split(s, ".")`: the dot-separated components of `s`
(always at least one component). -/
def splitDots (s : String) : List String :=
  splitDotsAux s.data []

/-- Parse a decimal digit sequence (helper for `parseUnix`). -/
def parseNatAux : List Char → Nat → Option Nat
  | [], acc => some acc
  | c :: rest, acc =>
    if c.isDigit then parseNatAux rest (acc * 10 + (c.toNat - '0'.toNat))
    else none

/-- `strconv.ParseInt(s, 10, 64)` as used to read the lastPinned annotation:
a decimal integer with optional leading minus sign. -/
def parseUnix (s : String) : Option Int :=
  match s.data with
  | [] => none
  | '-' :: rest =>
    if rest.isEmpty then none
    else (parseNatAux rest 0).map (fun n => -(n : Int))
  | l => (parseNatAux l 0).map (fun n => (n : Int))

/-- Label key marking the visibility of a Route or placeholder Service
(`serving.VisibilityLabelKey`). -/
def VisibilityLabelKey : String := "serving.knative.dev/visibility"

/-- Label value marking a cluster-local object (`serving.VisibilityClusterLocal`). -/
def VisibilityClusterLocal : String := "cluster-local"

/-- Label key tying a derived object to its parent Route (`serving.RouteLabelKey`). -/
def RouteLabelKey : String := "serving.knative.dev/route"

/-- Name of the default (tag-less) traffic target (`traffic.DefaultTarget`). -/
def DefaultTarget : String := ""

/-- The annotation key holding a Revision's last-pinned timestamp
(`serving.RevisionLastPinnedAnnotationKey`). -/
def RevisionLastPinnedKey : String := "serving.knative.dev/lastPinned"

/-- One element of a parsed Go `text/template`: either literal text or a
reference `{{.F}}` to a field named `F` of the data value. -/
inductive TemplatePart where
  | lit (s : String)
  | field (name : String)
deriving DecidableEq, Repr

/-- A parsed Go `text/template` as the sequence of its parts. -/
abbrev GoTemplate := List TemplatePart

/-- Errors (and the one panic) of the embedded reconciliation code. -/
inductive RErr where
  /-- `text/template` execution hit a field reference the data does not define. -/
  | templating (field : String)
  /-- The Go code executed a template variable that was never assigned
  (nil `*template.Template` dereference: a panic). -/
  | nilTemplatePanic
  /-- `domainLister.Get` found no Domain object for the realm. -/
  | domainNotFound (realm : String)
  /-- `endpointsLister` lookup of the gateway endpoints failed. -/
  | endpointsNotFound (ns name : String)
  /-- `serviceLister` lookup of the gateway service failed. -/
  | serviceNotFound (ns name : String)
  /-- The load-balancer address has fewer than two dot-separated labels, so
  `parts[1]` is out of range (a panic in Go). -/
  | badLBAddress (addr : String)
  /-- More than one ingress in the load-balancer status of the Ingress. -/
  | moreThanOneIngress (name : String)
  /-- An existing placeholder Service is not controlled by the Route. -/
  | notOwned (name : String)
  /-- The lastPinned annotation failed to parse (and was not merely missing). -/
  | invalidLastPinned (name : String)
deriving DecidableEq, Repr

/-- Execute a template against a field-resolution function, as
`template.Execute` does: output is assembled left to right and the first
undefined field reference aborts with an error. -/
def execTemplateWith (fv : String → Option String) : GoTemplate → Except RErr String
  | [] => Except.ok ""
  | TemplatePart.lit s :: rest =>
    match execTemplateWith fv rest with
    | Except.ok out => Except.ok (s ++ out)
    | Except.error e => Except.error e
  | TemplatePart.field n :: rest =>
    match fv n with
    | none => Except.error (RErr.templating n)
    | some s =>
      match execTemplateWith fv rest with
      | Except.ok out => Except.ok (s ++ out)
      | Except.error e => Except.error e

/-- Kubernetes object metadata (the fields the embedded code consults).
`ownerUid` stands for the controller owner reference. -/
structure ObjectMeta where
  name : String
  ns : String
  uid : String := ""
  labels : List (String × String) := []
  annotations : List (String × String) := []
  ownerUid : Option String := none
deriving DecidableEq, Repr

/-- The parts of a `corev1.ServiceSpec` the code reads or writes: `Type`,
`SessionAffinity`, and an opaque remainder compared by `DeepEqual`. -/
structure ServiceSpec where
  type : String := ""
  sessionAffinity : String := ""
  payload : String := ""
deriving DecidableEq, Repr

/-- A `corev1.Service`. -/
structure Service where
  meta : ObjectMeta
  spec : ServiceSpec := {}
deriving DecidableEq, Repr

/-- One traffic target of a Route's spec. -/
structure TrafficTarget where
  tag : String := ""
  revisionName : String := ""
deriving DecidableEq, Repr

/-- A serving Route. -/
structure Route where
  meta : ObjectMeta
  traffic : List TrafficTarget := []
deriving DecidableEq, Repr

/-- One entry of a load-balancer ingress status. -/
structure LoadBalancerIngressStatus where
  ip : String := ""
  domain : String := ""
  domainInternal : String := ""
  meshOnly : Bool := false
deriving DecidableEq, Repr

/-- A load-balancer status: its list of ingress entries. -/
structure LoadBalancerStatus where
  ingress : List LoadBalancerIngressStatus := []
deriving DecidableEq, Repr

/-- The status of a networking Ingress: public and private load balancers. -/
structure IngressStatus where
  publicLB : Option LoadBalancerStatus := none
  privateLB : Option LoadBalancerStatus := none
deriving DecidableEq, Repr

/-- A networking Ingress; its spec is opaque to the reconciler (only compared
and assigned), so it is a single payload value. -/
structure Ingress where
  meta : ObjectMeta
  spec : String := ""
  status : IngressStatus := {}
deriving DecidableEq, Repr

/-- A `corev1.Endpoints` object; each subset is an opaque payload. -/
structure Endpoints where
  meta : ObjectMeta
  subsets : List String := []
deriving DecidableEq, Repr

/-- A serving Revision (only its metadata is consulted). -/
structure Revision where
  meta : ObjectMeta
deriving DecidableEq, Repr

/-- Network configuration: the parsed domain and tag templates
(`config.Network.GetDomainTemplate` / `GetTagTemplate`). -/
structure NetworkConfig where
  domainTemplate : GoTemplate
  tagTemplate : GoTemplate
deriving DecidableEq, Repr

/-- Route reconciler configuration: the domain-suffix table (suffix keyed by
a label selector) and the network templates. -/
structure Config where
  domainCfg : List (List (String × String) × String) := []
  network : NetworkConfig
deriving DecidableEq, Repr

/-- `network.DefaultDomainTemplate`, the fixed internal template
`Name.Namespace.Domain`. -/
def DefaultDomainTemplate : GoTemplate :=
  [TemplatePart.field "Name", TemplatePart.lit ".",
   TemplatePart.field "Namespace", TemplatePart.lit ".",
   TemplatePart.field "Domain"]

/-- Field resolution for `network.TagTemplateValues` with fields Name, Tag. -/
def tagFieldValue (name tag : String) (n : String) : Option String :=
  if n = "Name" then some name
  else if n = "Tag" then some tag
  else none

/-- HostnameFromTemplate (`domains.go`): an empty tag returns the name
unchanged; otherwise the configured tag template is executed on Name/Tag. -/
def HostnameFromTemplate (cfg : Config) (name tag : String) : Except RErr String :=
  if tag = "" then Except.ok name
  else execTemplateWith (tagFieldValue name tag) cfg.network.tagTemplate

/-- Deterministic rendering of a map value when a template prints a whole
map (e.g. `{{.Labels}}`), standing in for Go's map formatting. -/
def renderMap : List (String × String) → String
  | [] => ""
  | (k, v) :: rest => k ++ ":" ++ v ++ " " ++ renderMap rest

/-- The data a domain template ranges over
(`network.DomainTemplateValues`). -/
structure DomainTemplateValues where
  name : String
  ns : String
  domain : String
  annotations : List (String × String) := []
  labels : List (String × String) := []
deriving DecidableEq, Repr

/-- Field resolution for `network.DomainTemplateValues` with fields Name,
Namespace, Domain, Annotations, Labels; anything else is undefined. -/
def domainFieldValue (v : DomainTemplateValues) (n : String) : Option String :=
  if n = "Name" then some v.name
  else if n = "Namespace" then some v.ns
  else if n = "Domain" then some v.domain
  else if n = "Annotations" then some (renderMap v.annotations)
  else if n = "Labels" then some (renderMap v.labels)
  else none

/-- Does a label selector match a label set (every selector pair present)? -/
def selMatches (sel : List (String × String)) (lbls : List (String × String)) : Bool :=
  sel.all (fun kv => decide (lookupStr lbls kv.1 = some kv.2))

/-- Modelled from the spec: `config.Domain.LookupDomainForLabels` lives in
`pkg/reconciler/route/config`, which is not under src/. Per the spec the
domain is resolved "by matching the target's labels against the suffix
table (most specific selector wins)": among matching selectors the one with
the most pairs wins, earlier entries win ties, no match yields `""`. -/
def LookupDomainForLabels (domains : List (List (String × String) × String))
    (lbls : List (String × String)) : String :=
  let matching := domains.filter (fun d => selMatches d.1 lbls)
  let best := matching.foldl
    (fun acc d =>
      match acc with
      | none => some d
      | some b => if d.1.length > b.1.length then some d else some b)
    (none : Option (List (String × String) × String))
  match best with
  | some d => d.2
  | none => ""

/-- The domains resolver: its Domain lister maps a realm name to the
Domain object's `Spec.Suffix`. -/
structure DomainResolver where
  domainLister : List (String × String) := []
deriving DecidableEq, Repr

/-- DomainNameFromTemplate (`domains.go`). The source declares
`var templ *template.Template` and then branches on the visibility label:
a non-empty label fetches the Domain suffix from the lister but never
assigns `templ`; an empty label falls to the `else if` comparing the (empty)
label against `cluster-local` (hence never taken) and then to the user
template. Executing with `templ` still unassigned is the nil-template panic. -/
def DomainNameFromTemplate (b : DomainResolver) (cfg : Config) (r : ObjectMeta)
    (name : String) : Except RErr String :=
  let rLabels := r.labels
  let domain := LookupDomainForLabels cfg.domainCfg rLabels
  let data0 : DomainTemplateValues :=
    { name := name, ns := r.ns, domain := domain,
      annotations := r.annotations, labels := rLabels }
  let vis := mapIdx rLabels VisibilityLabelKey
  let prepared : Except RErr (DomainTemplateValues × Option GoTemplate) :=
    if vis ≠ "" then
      match lookupStr b.domainLister vis with
      | none => Except.error (RErr.domainNotFound vis)
      | some suffix => Except.ok ({ data0 with domain := suffix }, none)
    else if vis = VisibilityClusterLocal then
      Except.ok (data0, some DefaultDomainTemplate)
    else
      Except.ok (data0, some cfg.network.domainTemplate)
  match prepared with
  | Except.error e => Except.error e
  | Except.ok (_, none) => Except.error RErr.nilTemplatePanic
  | Except.ok (data, some templ) => execTemplateWith (domainFieldValue data) templ

/-- The visibility resolver's `visibility` helper: the value of the
visibility label when non-empty, else the realm `"default"`. -/
def visibility (lbls : List (String × String)) : String :=
  let rname := mapIdx lbls VisibilityLabelKey
  if rname ≠ "" then rname else "default"

/-- `trafficNames`: the default target plus every tag of the Route's
traffic spec, as a set (deduplicated). -/
def trafficNames (route : Route) : List String :=
  (DefaultTarget :: route.traffic.map (fun tt => tt.tag)).dedup

/-- `getServices`: all Services in the Route's namespace labeled with the
Route's name (the lister `List` with the parent-reference label selector).
The reconciler's copy in `reconcile_resources.go` issues the identical
lister call as the one in the visibility resolver shown in src/. -/
def getServices (store : List Service) (route : Route) : List Service :=
  store.filter (fun s =>
    decide (s.meta.ns = route.meta.ns ∧
      lookupStr s.meta.labels RouteLabelKey = some route.meta.name))

/-- One row of `GetVisibility` per traffic-target name: resolve the target's
hostname, then take the placeholder Service's visibility when one with that
hostname exists, else the Route-level default. -/
def getVisRows (cfg : Config) (defaultVis : String) (services : List Service)
    (routeName : String) : List String → Except RErr (List (String × String))
  | [] => Except.ok []
  | tt :: rest =>
    match HostnameFromTemplate cfg routeName tt with
    | Except.error e => Except.error e
    | Except.ok hostname =>
      let v :=
        match services.find? (fun s => decide (s.meta.name = hostname)) with
        | some svc => visibility svc.meta.labels
        | none => defaultVis
      match getVisRows cfg defaultVis services routeName rest with
      | Except.error e => Except.error e
      | Except.ok m => Except.ok ((tt, v) :: m)

/-- GetVisibility (visibility resolver): a map from traffic-target name to
its resolved visibility realm. -/
def GetVisibility (cfg : Config) (store : List Service) (route : Route) :
    Except RErr (List (String × String)) :=
  getVisRows cfg (visibility route.meta.labels) (getServices store route)
    route.meta.name (trafficNames route)

/-- Every write the reconciliation pass can issue against the store. -/
inductive Write where
  | createIngress (ns name : String)
  | updateIngress (ns name : String)
  | createService (ns name : String)
  | updateService (ns name : String)
  | deleteService (ns name : String)
  | createEndpoints (ns name : String)
  | updateEndpoints (ns name : String)
  | deleteEndpoints (ns name : String)
  | patchRevision (ns name : String) (now : Int)
deriving DecidableEq, Repr

/-- Lister `Get` of an Ingress by namespace and name. -/
def findIng (store : List Ingress) (ns name : String) : Option Ingress :=
  store.find? (fun i => decide (i.meta.ns = ns ∧ i.meta.name = name))

/-- Lister `Get` of a Service by namespace and name. -/
def findSvc (store : List Service) (ns name : String) : Option Service :=
  store.find? (fun s => decide (s.meta.ns = ns ∧ s.meta.name = name))

/-- Lister `Get` of an Endpoints object by namespace and name. -/
def findEp (store : List Endpoints) (ns name : String) : Option Endpoints :=
  store.find? (fun e => decide (e.meta.ns = ns ∧ e.meta.name = name))

/-- Lister `Get` of a Revision by namespace and name. -/
def findRev (store : List Revision) (ns name : String) : Option Revision :=
  store.find? (fun r => decide (r.meta.ns = ns ∧ r.meta.name = name))

/-- reconcileIngress (`reconcile_resources.go`): create when absent; update
when spec, annotations or labels differ semantically; otherwise no write. -/
def reconcileIngress (store : List Ingress) (desired : Ingress) :
    List Write × Except RErr Ingress :=
  match findIng store desired.meta.ns desired.meta.name with
  | none =>
    ([Write.createIngress desired.meta.ns desired.meta.name], Except.ok desired)
  | some ing =>
    if ing.spec = desired.spec ∧
        mapEq ing.meta.annotations desired.meta.annotations = true ∧
        mapEq ing.meta.labels desired.meta.labels = true then
      ([], Except.ok ing)
    else
      ([Write.updateIngress desired.meta.ns desired.meta.name],
       Except.ok { ing with
         spec := desired.spec,
         meta := { ing.meta with
           annotations := desired.meta.annotations,
           labels := desired.meta.labels } })

/-- deleteServices (`reconcile_resources.go`): delete each named Service,
iterating the set in sorted order. -/
def deleteServices (ns : String) (serviceNames : List String) : List Write :=
  (sortStrings serviceNames).map (fun n => Write.deleteService ns n)

/-- The placeholder Service built for a resolved hostname: in the Route's
namespace, labeled with and controlled by the Route, backend-less. -/
def mkPlaceholder (route : Route) (n : String) : Service :=
  { meta := { name := n, ns := route.meta.ns, uid := "",
              labels := [(RouteLabelKey, route.meta.name)],
              annotations := [], ownerUid := some route.meta.uid },
    spec := {} }

/-- Modelled from the spec: `resources.MakeK8sPlaceholderService` lives in
`pkg/reconciler/route/resources`, which is not under src/. Per the spec a
traffic target "maps 1:1 to exactly one hostname and at most one placeholder
object", and the visibility resolver in src/ keys placeholder Services by the
target's hostname, so the placeholder's name is the hostname resolved by
`HostnameFromTemplate`; the object carries the parent label and owner
reference. -/
def MakeK8sPlaceholderService (cfg : Config) (route : Route) (target : String) :
    Except RErr Service :=
  match HostnameFromTemplate cfg route.meta.name target with
  | Except.error e => Except.error e
  | Except.ok n => Except.ok (mkPlaceholder route n)

/-- `metav1.IsControlledBy`: the Service's controller owner reference points
at the Route. -/
def IsControlledBy (s : Service) (route : Route) : Bool :=
  decide (s.meta.ownerUid = some route.meta.uid)

/-- The names of a list of Services (`resources.GetNames`). -/
def GetNames (l : List Service) : List String :=
  l.map (fun s => s.meta.name)

instance {ε α : Type} [DecidableEq ε] [DecidableEq α] : DecidableEq (Except ε α) :=
  fun x y =>
  match x, y with
  | Except.ok a, Except.ok b =>
    if h : a = b then isTrue (by rw [h])
    else isFalse (by intro hc; cases hc; exact h rfl)
  | Except.error a, Except.error b =>
    if h : a = b then isTrue (by rw [h])
    else isFalse (by intro hc; cases hc; exact h rfl)
  | Except.ok _, Except.error _ => isFalse (by intro hc; cases hc)
  | Except.error _, Except.ok _ => isFalse (by intro hc; cases hc)

/-- The outcome of reconcilePlaceholderServices: the writes issued, the
ownership-violation mark placed on the Route status (if any), and the
returned value or error. -/
structure PSResult where
  writes : List Write
  mark : Option String
  res : Except RErr (List Service)
deriving DecidableEq, Repr

/-- The names pruned after the loop: every existing labeled Service name not
among the created (desired) ones (`existingServiceNames.Difference(createdServiceNames)`). -/
def pruneNames (store : List Service) (route : Route) (created : List String) :
    List String :=
  ((GetNames (getServices store route)).dedup).filter (fun n => decide (n ∉ created))

/-- The per-name loop of reconcilePlaceholderServices followed by the
pruning step: for each desired name (in sorted set order) create the
placeholder when absent, keep it when present and controlled by the Route,
and abort with an ownership mark and error otherwise; after the loop,
delete every existing labeled Service whose name is no longer desired. -/
def psLoop (cfg : Config) (route : Route) (store : List Service) :
    List String → List Write → List Service → List String → PSResult
  | [], ws, acc, created =>
    { writes := ws ++ deleteServices route.meta.ns (pruneNames store route created),
      mark := none, res := Except.ok acc }
  | name :: rest, ws, acc, created =>
    match MakeK8sPlaceholderService cfg route name with
    | Except.error e => { writes := ws, mark := none, res := Except.error e }
    | Except.ok desired =>
      match findSvc store route.meta.ns desired.meta.name with
      | none =>
        psLoop cfg route store rest
          (ws ++ [Write.createService route.meta.ns desired.meta.name])
          (acc ++ [desired]) (created ++ [desired.meta.name])
      | some service =>
        if IsControlledBy service route then
          psLoop cfg route store rest ws (acc ++ [service])
            (created ++ [desired.meta.name])
        else
          { writes := ws, mark := some desired.meta.name,
            res := Except.error (RErr.notOwned desired.meta.name) }

/-- reconcilePlaceholderServices (`reconcile_resources.go`): run the loop
over the sorted set of target names starting from empty accumulators. -/
def reconcilePlaceholderServices (cfg : Config) (route : Route)
    (store : List Service) (targets : List String) : PSResult :=
  psLoop cfg route store (setList targets) [] [] []

/-- Modelled from the spec: `resources.MakeEndpoints` is not under src/; the
call site's comment says "Copy ingress endpoints' subsets to local
endpoints" and the spec says the mirror's subsets are "copied verbatim from
the resolved gateway's endpoint list". -/
def MakeEndpointsSubsets (ingEp : Endpoints) : List String :=
  ingEp.subsets

/-- reconcileEndpoints (`reconcile_resources.go`): split the gateway address
on dots into name and namespace (fewer than two labels is an out-of-range
panic in Go, embedded as an error), fetch the gateway endpoints, and create
or update the mirror so its subsets match; equal subsets mean no write. -/
def reconcileEndpoints (store : List Endpoints) (addr : String)
    (service : Service) : List Write × Except RErr Unit :=
  match splitDots addr with
  | name :: ns2 :: _ =>
    match findEp store ns2 name with
    | none => ([], Except.error (RErr.endpointsNotFound ns2 name))
    | some ingEp =>
      let desiredSubsets := MakeEndpointsSubsets ingEp
      match findEp store service.meta.ns service.meta.name with
      | none =>
        ([Write.createEndpoints service.meta.ns service.meta.name],
         Except.ok ())
      | some localEp =>
        if localEp.subsets = desiredSubsets then ([], Except.ok ())
        else
          ([Write.updateEndpoints service.meta.ns service.meta.name],
           Except.ok ())
  | _ => ([], Except.error (RErr.badLBAddress addr))

/-- reconcilePlaceholderServiceSpec (`reconcile_resources.go`): split the
gateway address the same way, fetch the gateway Service, force type
ClusterIP and session affinity None onto its spec, and update the
placeholder when its spec differs. -/
def reconcilePlaceholderServiceSpec (store : List Service) (addr : String)
    (service : Service) : List Write × Except RErr Unit :=
  match splitDots addr with
  | name :: ns2 :: _ =>
    match findSvc store ns2 name with
    | none => ([], Except.error (RErr.serviceNotFound ns2 name))
    | some ingService =>
      let desiredSpec :=
        { ingService.spec with type := "ClusterIP", sessionAffinity := "None" }
      if service.spec = desiredSpec then ([], Except.ok ())
      else
        ([Write.updateService service.meta.ns service.meta.name],
         Except.ok ())
  | _ => ([], Except.error (RErr.badLBAddress addr))

/-- Modelled from the spec: `resources.IsClusterLocalService` is not under
src/; per the spec a placeholder carries "an optional visibility label",
and it is cluster-local when that label says so. -/
def IsClusterLocalService (s : Service) : Bool :=
  decide (lookupStr s.meta.labels VisibilityLabelKey = some VisibilityClusterLocal)

/-- The load-balancer status updatePlaceholderServices selects for a
service: the private one when the service is cluster-local or a private
one exists, else the public one. -/
def selectLoadBalancer (ing : Ingress) (service : Service) :
    Option LoadBalancerStatus :=
  if IsClusterLocalService service || ing.status.privateLB.isSome then
    ing.status.privateLB
  else
    ing.status.publicLB

/-- The per-service mirroring work of updatePlaceholderServices: mirror the
gateway's endpoints and force the placeholder's spec, addressed through
DomainInternal first, then Domain; MeshOnly and bare-IP balancers are
no-ops. -/
def updateBranch (epStore : List Endpoints) (svcStore : List Service)
    (service : Service) (balancer : LoadBalancerIngressStatus) :
    List Write × Except RErr Unit :=
  if balancer.domainInternal ≠ "" then
    let r1 := reconcileEndpoints epStore balancer.domainInternal service
    match r1.2 with
    | Except.error e => (r1.1, Except.error e)
    | Except.ok _ =>
      let r2 := reconcilePlaceholderServiceSpec svcStore balancer.domainInternal service
      (r1.1 ++ r2.1, r2.2)
  else if balancer.domain ≠ "" then
    let r1 := reconcileEndpoints epStore balancer.domain service
    match r1.2 with
    | Except.error e => (r1.1, Except.error e)
    | Except.ok _ =>
      let r2 := reconcilePlaceholderServiceSpec svcStore balancer.domain service
      (r1.1 ++ r2.1, r2.2)
  else ([], Except.ok ())

/-- updatePlaceholderServices (`reconcile_resources.go`): walk the services;
a service whose selected load-balancer status is absent or empty makes the
whole function return success at once; more than one ingress entry makes it
return the unsupported-configuration error at once; exactly one entry runs
the mirroring branch, and branch errors are aggregated after the walk. -/
def updatePlaceholderServices (epStore : List Endpoints) (svcStore : List Service)
    (ing : Ingress) : List Service → List Write × Except RErr Unit
  | [] => ([], Except.ok ())
  | service :: rest =>
    match selectLoadBalancer ing service with
    | none => ([], Except.ok ())
    | some lb =>
      match lb.ingress with
      | [] => ([], Except.ok ())
      | [balancer] =>
        let r := updateBranch epStore svcStore service balancer
        let rrest := updatePlaceholderServices epStore svcStore ing rest
        (r.1 ++ rrest.1,
         match r.2 with
         | Except.error e => Except.error e
         | Except.ok _ => rrest.2)
      | _ :: _ :: _ => ([], Except.error (RErr.moreThanOneIngress ing.meta.name))

/-- `Revision.GetLastPinned`'s annotation read: the raw lastPinned value. -/
def GetLastPinnedAnn (rev : Revision) : Option String :=
  lookupStr rev.meta.annotations RevisionLastPinnedKey

/-- The per-revision body of reconcileTargetRevisions: a missing revision is
skipped; a missing lastPinned annotation is patched immediately; an
unparsable one is an error; one pinned at `t` is patched only when the
clock has reached `t + debounce`. -/
def reconcileRevisionPin (debounce now : Int) (revStore : List Revision)
    (ns revName : String) : List Write × Except RErr Unit :=
  match findRev revStore ns revName with
  | none => ([], Except.ok ())
  | some rev =>
    match GetLastPinnedAnn rev with
    | none => ([Write.patchRevision ns revName now], Except.ok ())
    | some s =>
      match parseUnix s with
      | none => ([], Except.error (RErr.invalidLastPinned revName))
      | some t =>
        if now < t + debounce then ([], Except.ok ())
        else ([Write.patchRevision ns revName now], Except.ok ())

/-- reconcileTargetRevisions (`reconcile_resources.go`): refresh the pin of
every targeted revision; all branches run (errgroup) and the first error is
reported. -/
def reconcileTargetRevisions (debounce now : Int) (revStore : List Revision)
    (ns : String) : List String → List Write × Except RErr Unit
  | [] => ([], Except.ok ())
  | rn :: rest =>
    let r := reconcileRevisionPin debounce now revStore ns rn
    let rrest := reconcileTargetRevisions debounce now revStore ns rest
    (r.1 ++ rrest.1,
     match r.2 with
     | Except.error e => Except.error e
     | Except.ok _ => rrest.2)

/-- Modelled from the spec: nothing under src/ deletes endpoint mirrors; the
spec says removing a target "causes exactly its placeholder and mirror
objects to be deleted", and a mirror shares its placeholder's namespace and
name, so a placeholder deletion cascades to the same-named mirror. -/
def mirrorCascade (ws : List Write) : List Write :=
  ws.filterMap (fun w =>
    match w with
    | Write.deleteService a b => some (Write.deleteEndpoints a b)
    | _ => none)

/-- A field name the tag-template data defines. -/
def tagFieldDefined (n : String) : Bool :=
  n = "Name" || n = "Tag"

/-- A field name the domain-template data defines. -/
def domainFieldDefined (n : String) : Bool :=
  n = "Name" || n = "Namespace" || n = "Domain" || n = "Annotations" || n = "Labels"

/-- A template references a field outside the given defined set. -/
def refsUndefinedField (defined : String → Bool) (t : GoTemplate) : Prop :=
  ∃ n, TemplatePart.field n ∈ t ∧ defined n = false

/-! ### Concrete fixtures used by witnesses and counterexamples -/

/-- A load-balancer status with two private addresses (fixture). -/
def c4privLB : LoadBalancerStatus :=
  { ingress := [{ domainInternal := "a.b" }, { domainInternal := "c.d" }] }

/-- An Ingress whose private load balancer reports two addresses (fixture). -/
def c4ingPriv : Ingress :=
  { meta := { name := "i", ns := "d" }, status := { privateLB := some c4privLB } }

/-- A load-balancer status with two public addresses (fixture). -/
def c4pubLB : LoadBalancerStatus :=
  { ingress := [{ domain := "x.y" }, { domain := "z.w" }] }

/-- An Ingress whose public load balancer reports two addresses and whose
private one is absent (fixture). -/
def c4ingPub : Ingress :=
  { meta := { name := "i", ns := "d" }, status := { publicLB := some c4pubLB } }

/-- A cluster-local placeholder Service (fixture). -/
def c4svcLocal : Service :=
  { meta := { name := "sl", ns := "d",
              labels := [(VisibilityLabelKey, VisibilityClusterLocal)] } }

/-- A non-local placeholder Service (fixture). -/
def c4svcPublic : Service :=
  { meta := { name := "sp", ns := "d" } }

/-- The configuration for the visibility fixtures: the default knative tag
template `Tag-Name` and the default domain template (fixture). -/
def c8cfg : Config :=
  { network := { domainTemplate := DefaultDomainTemplate,
                 tagTemplate := [TemplatePart.field "Tag", TemplatePart.lit "-",
                                 TemplatePart.field "Name"] } }

/-- A Route labeled with the visibility realm "myrealm" (fixture). -/
def c8route : Route :=
  { meta := { name := "r", ns := "d",
              labels := [(VisibilityLabelKey, "myrealm")] } }

/-- A store holding a placeholder for the default target carrying an explicit
visibility label (fixture). -/
def c8store : List Service :=
  [{ meta := { name := "r", ns := "d",
               labels := [(RouteLabelKey, "r"), (VisibilityLabelKey, "other")] } }]

/-- A store holding a placeholder for the default target that carries no
visibility label (fixture). -/
def c8storeNoLabel : List Service :=
  [{ meta := { name := "r", ns := "d", labels := [(RouteLabelKey, "r")] } }]

/-- The configuration for the placeholder fixtures (fixture). -/
def c3cfg : Config :=
  { network := { domainTemplate := DefaultDomainTemplate,
                 tagTemplate := [TemplatePart.field "Tag", TemplatePart.lit "-",
                                 TemplatePart.field "Name"] } }

/-- A Route with uid "u1" (fixture). -/
def c3route : Route :=
  { meta := { name := "r", ns := "d", uid := "u1" } }

/-- A placeholder for the default target owned by the Route (fixture). -/
def c3svcOwned : Service :=
  { meta := { name := "r", ns := "d", labels := [(RouteLabelKey, "r")],
              ownerUid := some "u1" } }

/-- A Service labeled with the Route but controlled by another owner, with a
name outside the desired target set (fixture). -/
def c3svcStale : Service :=
  { meta := { name := "stale", ns := "d", labels := [(RouteLabelKey, "r")],
              ownerUid := some "u2" } }

/-- A Service bearing the desired placeholder name "r" but controlled by
another owner (fixture). -/
def c3svcForeign : Service :=
  { meta := { name := "r", ns := "d", labels := [(RouteLabelKey, "r")],
              ownerUid := some "u2" } }

/-- The configuration for the pruning fixtures (fixture). -/
def c7cfg : Config :=
  { network := { domainTemplate := DefaultDomainTemplate,
                 tagTemplate := [TemplatePart.field "Tag", TemplatePart.lit "-",
                                 TemplatePart.field "Name"] } }

/-- A Route with uid "u1" for the pruning fixtures (fixture). -/
def c7route : Route :=
  { meta := { name := "r", ns := "d", uid := "u1" } }

/-- The hostname each target of the pruning fixtures resolves to (fixture). -/
def c7h : String → String :=
  fun t => if t = "" then "r" else "x-r"

/-- The store of placeholders left by a previous pass over the targets
`[""]` and `["x"]` (fixture). -/
def c7store : List Service :=
  (setList ["", "x"]).map (fun t => mkPlaceholder c7route (c7h t))

/-- A configuration whose tag template and domain template both reference an
undefined field (fixture). -/
def c6cfg : Config :=
  { network := { domainTemplate :=
                   [TemplatePart.field "Name", TemplatePart.lit ".",
                    TemplatePart.field "NNNamespace", TemplatePart.lit ".",
                    TemplatePart.field "Domain"],
                 tagTemplate := [TemplatePart.field "Oops"] } }

/-! ### Helper lemmas -/

theorem tagFieldValue_eq_none (name tag n : String) (h : tagFieldDefined n = false) :
    tagFieldValue name tag n = none := by
  unfold tagFieldDefined at h
  simp only [Bool.or_eq_false_iff, decide_eq_false_iff_not] at h
  simp [tagFieldValue, h.1, h.2]

theorem domainFieldValue_eq_none (v : DomainTemplateValues) (n : String)
    (h : domainFieldDefined n = false) : domainFieldValue v n = none := by
  unfold domainFieldDefined at h
  simp only [Bool.or_eq_false_iff, decide_eq_false_iff_not] at h
  obtain ⟨⟨⟨⟨h1, h2⟩, h3⟩, h4⟩, h5⟩ := h
  simp [domainFieldValue, h1, h2, h3, h4, h5]

theorem execTemplateWith_error_of_undefined (fv : String → Option String) :
    ∀ t : GoTemplate, (∃ n, TemplatePart.field n ∈ t ∧ fv n = none) →
    ∃ f, execTemplateWith fv t = Except.error (RErr.templating f) ∧ fv f = none
  | [], h => by
    rcases h with ⟨n, hn, _⟩
    simp at hn
  | TemplatePart.lit s :: rest, h => by
    rcases h with ⟨n, hn, hfv⟩
    rcases List.mem_cons.mp hn with h1 | h2
    · simp at h1
    · rcases execTemplateWith_error_of_undefined fv rest ⟨n, h2, hfv⟩ with ⟨f, hf, hfn⟩
      refine ⟨f, ?_, hfn⟩
      simp [execTemplateWith, hf]
  | TemplatePart.field n0 :: rest, h => by
    cases hfv0 : fv n0 with
    | none =>
      exact ⟨n0, by simp [execTemplateWith, hfv0], hfv0⟩
    | some s =>
      rcases h with ⟨n, hn, hfv⟩
      rcases List.mem_cons.mp hn with h1 | h2
      · injection h1 with h3
        rw [h3, hfv0] at hfv
        simp at hfv
      · rcases execTemplateWith_error_of_undefined fv rest ⟨n, h2, hfv⟩ with ⟨f, hf, hfn⟩
        refine ⟨f, ?_, hfn⟩
        simp [execTemplateWith, hfv0, hf]

/-! ### Claim theorems -/

/-- C9: HostnameFromTemplate with an empty tag returns the name unchanged,
for every configured tag template, and the result does not depend on the
configuration at all (the template is never invoked). -/
theorem C9_empty_tag_identity :
    ∀ (cfg cfg' : Config) (name : String),
      HostnameFromTemplate cfg name "" = Except.ok name ∧
      HostnameFromTemplate cfg name "" = HostnameFromTemplate cfg' name "" := by
  intro cfg cfg' name
  constructor <;> simp [HostnameFromTemplate]

/-- C6: a template referencing an undefined field makes hostname resolution
(with a non-empty tag, so that the tag template is executed) and domain
resolution (with no visibility label, so that the user domain template is the
one executed) return a templating error; no partially expanded string is ever
returned as a successful result. -/
theorem C6_undefined_field_is_error :
    ∀ (cfg : Config) (b : DomainResolver) (r : ObjectMeta) (name tag : String),
      (tag ≠ "" → refsUndefinedField tagFieldDefined cfg.network.tagTemplate →
        ∃ f, HostnameFromTemplate cfg name tag = Except.error (RErr.templating f)) ∧
      (mapIdx r.labels VisibilityLabelKey = "" →
        refsUndefinedField domainFieldDefined cfg.network.domainTemplate →
        ∃ f, DomainNameFromTemplate b cfg r name = Except.error (RErr.templating f)) := by
  intro cfg b r name tag
  constructor
  · intro htag hu
    rcases hu with ⟨n, hn, hdef⟩
    rcases execTemplateWith_error_of_undefined (tagFieldValue name tag)
      cfg.network.tagTemplate ⟨n, hn, tagFieldValue_eq_none name tag n hdef⟩ with ⟨f, hf, _⟩
    exact ⟨f, by simp [HostnameFromTemplate, htag, hf]⟩
  · intro hvis hu
    rcases hu with ⟨n, hn, hdef⟩
    rcases execTemplateWith_error_of_undefined
      (domainFieldValue
        { name := name, ns := r.ns,
          domain := LookupDomainForLabels cfg.domainCfg r.labels,
          annotations := r.annotations, labels := r.labels })
      cfg.network.domainTemplate
      ⟨n, hn, domainFieldValue_eq_none _ n hdef⟩ with ⟨f, hf, _⟩
    refine ⟨f, ?_⟩
    have hne : ¬(("" : String) = VisibilityClusterLocal) := by decide
    simp [DomainNameFromTemplate, hvis, hne, hf]

/-- C10: a load-balancer address with fewer than two dot-separated labels
makes reconcileEndpoints and reconcilePlaceholderServiceSpec hit the
out-of-range index access (embedded as the badLBAddress error), and no write
is performed. -/
theorem C10_short_address_is_error :
    ∀ (epStore : List Endpoints) (svcStore : List Service) (addr : String)
      (service : Service),
      (splitDots addr).length < 2 →
      reconcileEndpoints epStore addr service
        = ([], Except.error (RErr.badLBAddress addr)) ∧
      reconcilePlaceholderServiceSpec svcStore addr service
        = ([], Except.error (RErr.badLBAddress addr)) := by
  intro epStore svcStore addr service hlen
  match h : splitDots addr with
  | [] =>
    exact ⟨by simp [reconcileEndpoints, h], by simp [reconcilePlaceholderServiceSpec, h]⟩
  | [a] =>
    exact ⟨by simp [reconcileEndpoints, h], by simp [reconcilePlaceholderServiceSpec, h]⟩
  | a :: b :: t =>
    rw [h] at hlen
    simp at hlen
    omega

/-- C10 witness: the single-label address "nodots" concretely triggers the
error branch of both functions. -/
theorem C10_witness :
    (splitDots "nodots").length < 2 ∧
    reconcileEndpoints [] "nodots" { meta := { name := "s", ns := "d" } }
      = ([], Except.error (RErr.badLBAddress "nodots")) ∧
    reconcilePlaceholderServiceSpec [] "nodots" { meta := { name := "s", ns := "d" } }
      = ([], Except.error (RErr.badLBAddress "nodots")) := by
  refine ⟨by decide, ?_⟩
  exact C10_short_address_is_error [] [] "nodots" { meta := { name := "s", ns := "d" } }
    (by decide)

/-- C1 (code bug): a target whose labels mark it cluster-local takes the
non-empty-visibility branch of DomainNameFromTemplate, which fetches the
internal suffix from the Domain lister but never assigns the template
variable, so execution dereferences a nil template (a panic) instead of
applying the fixed internal default template; the source's
else-if-cluster-local branch that would select the default template is
unreachable because it is only tried when the label is empty. -/
theorem C1_cluster_local_nil_template :
    DomainNameFromTemplate
      { domainLister := [(VisibilityClusterLocal, "svc.cluster.local")] }
      { domainCfg := [([], "example.com")],
        network := { domainTemplate := DefaultDomainTemplate,
                     tagTemplate := [TemplatePart.field "Tag", TemplatePart.lit "-",
                                     TemplatePart.field "Name"] } }
      { name := "myroute", ns := "default",
        labels := [(VisibilityLabelKey, VisibilityClusterLocal)] }
      "test-name"
      = Except.error RErr.nilTemplatePanic := by decide

theorem reconcileRevisionPin_writes_sub (debounce now : Int) (revStore : List Revision)
    (ns rn : String) :
    ∀ w ∈ (reconcileRevisionPin debounce now revStore ns rn).1,
      w = Write.patchRevision ns rn now := by
  intro w hw
  cases h1 : findRev revStore ns rn with
  | none => simp [reconcileRevisionPin, h1] at hw
  | some rev =>
    cases h2 : GetLastPinnedAnn rev with
    | none => simp [reconcileRevisionPin, h1, h2] at hw; exact hw
    | some s =>
      cases h3 : parseUnix s with
      | none => simp [reconcileRevisionPin, h1, h2, h3] at hw
      | some t =>
        by_cases h4 : now < t + debounce
        · simp [reconcileRevisionPin, h1, h2, h3, h4] at hw
        · simp [reconcileRevisionPin, h1, h2, h3, h4] at hw; exact hw

theorem reconcileRevisionPin_skip (debounce now t : Int) (revStore : List Revision)
    (ns rn : String) (rev : Revision) (s : String)
    (h1 : findRev revStore ns rn = some rev) (h2 : GetLastPinnedAnn rev = some s)
    (h3 : parseUnix s = some t) (h4 : now < t + debounce) :
    (reconcileRevisionPin debounce now revStore ns rn).1 = [] := by
  simp [reconcileRevisionPin, h1, h2, h3, h4]

theorem reconcileRevisionPin_patch (debounce now t : Int) (revStore : List Revision)
    (ns rn : String) (rev : Revision) (s : String)
    (h1 : findRev revStore ns rn = some rev) (h2 : GetLastPinnedAnn rev = some s)
    (h3 : parseUnix s = some t) (h4 : ¬ now < t + debounce) :
    (reconcileRevisionPin debounce now revStore ns rn).1
      = [Write.patchRevision ns rn now] := by
  simp [reconcileRevisionPin, h1, h2, h3, h4]

theorem reconcileRevisionPin_missing (debounce now : Int) (revStore : List Revision)
    (ns rn : String) (rev : Revision)
    (h1 : findRev revStore ns rn = some rev) (h2 : GetLastPinnedAnn rev = none) :
    (reconcileRevisionPin debounce now revStore ns rn).1
      = [Write.patchRevision ns rn now] := by
  simp [reconcileRevisionPin, h1, h2]

theorem reconcileTargetRevisions_mem (debounce now : Int) (revStore : List Revision)
    (ns : String) :
    ∀ (names : List String) (w : Write),
      w ∈ (reconcileTargetRevisions debounce now revStore ns names).1 ↔
      ∃ rn ∈ names, w ∈ (reconcileRevisionPin debounce now revStore ns rn).1
  | [], w => by simp [reconcileTargetRevisions]
  | rn :: rest, w => by
    simp only [reconcileTargetRevisions, List.mem_append]
    constructor
    · intro h
      rcases h with h | h
      · exact ⟨rn, List.mem_cons_self _ _, h⟩
      · rcases (reconcileTargetRevisions_mem debounce now revStore ns rest w).mp h
          with ⟨rn', hrn', hw⟩
        exact ⟨rn', List.mem_cons_of_mem _ hrn', hw⟩
    · rintro ⟨rn', hrn', hw⟩
      rcases List.mem_cons.mp hrn' with heq | hrn'
      · subst heq; exact Or.inl hw
      · exact Or.inr ((reconcileTargetRevisions_mem debounce now revStore ns rest w).mpr
          ⟨rn', hrn', hw⟩)

theorem reconcileTargetRevisions_no_writes (debounce now : Int) (revStore : List Revision)
    (ns : String) :
    ∀ names : List String,
      (∀ rn ∈ names, ∃ rev s t, findRev revStore ns rn = some rev ∧
        GetLastPinnedAnn rev = some s ∧ parseUnix s = some t ∧ now < t + debounce) →
      (reconcileTargetRevisions debounce now revStore ns names).1 = []
  | [], _ => by simp [reconcileTargetRevisions]
  | rn :: rest, h => by
    rcases h rn (List.mem_cons_self _ _) with ⟨rev, s, t, h1, h2, h3, h4⟩
    have hrest := reconcileTargetRevisions_no_writes debounce now revStore ns rest
      (fun rn' hrn' => h rn' (List.mem_cons_of_mem _ hrn'))
    have hp := reconcileRevisionPin_skip debounce now t revStore ns rn rev s h1 h2 h3 h4
    simp [reconcileTargetRevisions, hp, hrest]

/-- C5: a targeted revision whose lastPinned annotation records time `t` is
never patched by a pass whose clock is before `t + debounce`; a pass at or
after `t + debounce` rewrites the pin; a targeted revision carrying no
lastPinned annotation is patched immediately. -/
theorem C5_lastPinned_debounce :
    ∀ (debounce now t : Int) (revStore : List Revision) (ns : String)
      (names : List String) (rn : String) (rev : Revision) (s : String),
      rn ∈ names → findRev revStore ns rn = some rev →
      ((GetLastPinnedAnn rev = some s → parseUnix s = some t → now < t + debounce →
        Write.patchRevision ns rn now ∉
          (reconcileTargetRevisions debounce now revStore ns names).1) ∧
       (GetLastPinnedAnn rev = some s → parseUnix s = some t → t + debounce ≤ now →
        Write.patchRevision ns rn now ∈
          (reconcileTargetRevisions debounce now revStore ns names).1) ∧
       (GetLastPinnedAnn rev = none →
        Write.patchRevision ns rn now ∈
          (reconcileTargetRevisions debounce now revStore ns names).1)) := by
  intro debounce now t revStore ns names rn rev s hmem hfind
  refine ⟨?_, ?_, ?_⟩
  · intro h2 h3 h4 hw
    rcases (reconcileTargetRevisions_mem debounce now revStore ns names _).mp hw
      with ⟨rn', hrn', hw'⟩
    have heq := reconcileRevisionPin_writes_sub debounce now revStore ns rn' _ hw'
    injection heq with hns hname hnow
    subst hname
    rw [reconcileRevisionPin_skip debounce now t revStore ns rn rev s hfind h2 h3 h4] at hw'
    simp at hw'
  · intro h2 h3 h4
    refine (reconcileTargetRevisions_mem debounce now revStore ns names _).mpr
      ⟨rn, hmem, ?_⟩
    rw [reconcileRevisionPin_patch debounce now t revStore ns rn rev s hfind h2 h3
      (not_lt.mpr h4)]
    exact List.mem_singleton_self _
  · intro h2
    refine (reconcileTargetRevisions_mem debounce now revStore ns names _).mpr
      ⟨rn, hmem, ?_⟩
    rw [reconcileRevisionPin_missing debounce now revStore ns rn rev hfind h2]
    exact List.mem_singleton_self _

/-- C5 witness: with a debounce of 60 and a revision pinned at time 0, a pass
at clock 10 does not patch it and a pass at clock 70 does. -/
theorem C5_witness :
    Write.patchRevision "d" "r1" 10 ∉
      (reconcileTargetRevisions 60 10
        [{ meta := { name := "r1", ns := "d",
                     annotations := [(RevisionLastPinnedKey, "0")] } }] "d" ["r1"]).1 ∧
    Write.patchRevision "d" "r1" 70 ∈
      (reconcileTargetRevisions 60 70
        [{ meta := { name := "r1", ns := "d",
                     annotations := [(RevisionLastPinnedKey, "0")] } }] "d" ["r1"]).1 := by
  constructor
  · exact (C5_lastPinned_debounce 60 10 0
      [{ meta := { name := "r1", ns := "d",
                   annotations := [(RevisionLastPinnedKey, "0")] } }] "d" ["r1"] "r1"
      { meta := { name := "r1", ns := "d",
                  annotations := [(RevisionLastPinnedKey, "0")] } } "0"
      (by decide) (by decide)).1 (by decide) (by decide) (by decide)
  · exact ((C5_lastPinned_debounce 60 70 0
      [{ meta := { name := "r1", ns := "d",
                   annotations := [(RevisionLastPinnedKey, "0")] } }] "d" ["r1"] "r1"
      { meta := { name := "r1", ns := "d",
                  annotations := [(RevisionLastPinnedKey, "0")] } } "0"
      (by decide) (by decide)).2.1) (by decide) (by decide) (by decide)

/-- C2: a pass over an unchanged world performs no additional write:
reconcileIngress issues no write when the observed Ingress matches the
desired one on spec, annotations and labels; reconcileEndpoints issues no
write when the mirror's subsets already equal the gateway's; and
reconcileTargetRevisions issues no write when every targeted revision's
lastPinned annotation is still inside the debounce window. -/
theorem C2_second_pass_no_writes :
    ∀ (ingStore : List Ingress) (desired ing : Ingress)
      (epStore : List Endpoints) (addr : String) (svc : Service)
      (gwName gwNs : String) (tail : List String) (ingEp localEp : Endpoints)
      (debounce now : Int) (revStore : List Revision) (ns : String)
      (names : List String),
      (findIng ingStore desired.meta.ns desired.meta.name = some ing →
        ing.spec = desired.spec →
        mapEq ing.meta.annotations desired.meta.annotations = true →
        mapEq ing.meta.labels desired.meta.labels = true →
        (reconcileIngress ingStore desired).1 = []) ∧
      (splitDots addr = gwName :: gwNs :: tail →
        findEp epStore gwNs gwName = some ingEp →
        findEp epStore svc.meta.ns svc.meta.name = some localEp →
        localEp.subsets = ingEp.subsets →
        (reconcileEndpoints epStore addr svc).1 = []) ∧
      ((∀ rn ∈ names, ∃ rev s t, findRev revStore ns rn = some rev ∧
          GetLastPinnedAnn rev = some s ∧ parseUnix s = some t ∧
          now < t + debounce) →
        (reconcileTargetRevisions debounce now revStore ns names).1 = []) := by
  intro ingStore desired ing epStore addr svc gwName gwNs tail ingEp localEp
    debounce now revStore ns names
  refine ⟨?_, ?_, ?_⟩
  · intro hfind h2 h3 h4
    simp [reconcileIngress, hfind, h2, h3, h4]
  · intro hsplit h1 h2 h3
    simp [reconcileEndpoints, hsplit, h1, h2, MakeEndpointsSubsets, h3]
  · intro h
    exact reconcileTargetRevisions_no_writes debounce now revStore ns names h

/-- C2 witness: a concrete unchanged world in which all three reconciliation
steps issue zero writes. -/
theorem C2_witness :
    (reconcileIngress
      [{ meta := { name := "i", ns := "d", annotations := [("a", "1")],
                   labels := [("l", "2")] }, spec := "payload" }]
      { meta := { name := "i", ns := "d", annotations := [("a", "1")],
                  labels := [("l", "2")] }, spec := "payload" }).1 = [] ∧
    (reconcileEndpoints
      [{ meta := { name := "gw", ns := "gns" }, subsets := ["s1"] },
       { meta := { name := "svc", ns := "d" }, subsets := ["s1"] }]
      "gw.gns.svc.cluster.local"
      { meta := { name := "svc", ns := "d" } }).1 = [] ∧
    (reconcileTargetRevisions 60 10
      [{ meta := { name := "r1", ns := "d",
                   annotations := [(RevisionLastPinnedKey, "0")] } }] "d" ["r1"]).1 = [] := by
  refine ⟨?_, ?_, ?_⟩
  · exact (C2_second_pass_no_writes
      [{ meta := { name := "i", ns := "d", annotations := [("a", "1")],
                   labels := [("l", "2")] }, spec := "payload" }]
      { meta := { name := "i", ns := "d", annotations := [("a", "1")],
                  labels := [("l", "2")] }, spec := "payload" }
      { meta := { name := "i", ns := "d", annotations := [("a", "1")],
                  labels := [("l", "2")] }, spec := "payload" }
      [] "" { meta := { name := "", ns := "" } } "" "" []
      { meta := { name := "", ns := "" } } { meta := { name := "", ns := "" } }
      0 0 [] "" []).1 (by decide) (by decide) (by decide) (by decide)
  · exact (C2_second_pass_no_writes [] { meta := { name := "", ns := "" } }
      { meta := { name := "", ns := "" } }
      [{ meta := { name := "gw", ns := "gns" }, subsets := ["s1"] },
       { meta := { name := "svc", ns := "d" }, subsets := ["s1"] }]
      "gw.gns.svc.cluster.local" { meta := { name := "svc", ns := "d" } }
      "gw" "gns" ["svc", "cluster", "local"]
      { meta := { name := "gw", ns := "gns" }, subsets := ["s1"] }
      { meta := { name := "svc", ns := "d" }, subsets := ["s1"] }
      0 0 [] "" []).2.1 (by decide) (by decide) (by decide) (by decide)
  · refine (C2_second_pass_no_writes [] { meta := { name := "", ns := "" } }
      { meta := { name := "", ns := "" } } [] "" { meta := { name := "", ns := "" } }
      "" "" [] { meta := { name := "", ns := "" } } { meta := { name := "", ns := "" } }
      60 10
      [{ meta := { name := "r1", ns := "d",
                   annotations := [(RevisionLastPinnedKey, "0")] } }] "d" ["r1"]).2.2 ?_
    intro rn hrn
    simp only [List.mem_singleton] at hrn
    subst hrn
    exact ⟨{ meta := { name := "r1", ns := "d",
                       annotations := [(RevisionLastPinnedKey, "0")] } }, "0", 0,
      by decide, by decide, by decide, by decide⟩

theorem selectLoadBalancer_unique (ing : Ingress) (s1 s2 : Service)
    (l1 l2 : LoadBalancerStatus)
    (h1 : selectLoadBalancer ing s1 = some l1)
    (h2 : selectLoadBalancer ing s2 = some l2) : l1 = l2 := by
  unfold selectLoadBalancer at h1 h2
  cases hp : ing.status.privateLB with
  | some p =>
    rw [hp] at h1 h2
    simp at h1 h2
    rw [← h1, ← h2]
  | none =>
    rw [hp] at h1 h2
    by_cases hc1 : IsClusterLocalService s1 = true
    · simp [hc1] at h1
    · by_cases hc2 : IsClusterLocalService s2 = true
      · simp [hc2] at h2
      · simp [hc1, hc2] at h1 h2
        rw [h1] at h2
        exact Option.some_injective _ h2

theorem reconcileEndpoints_error_shape (st : List Endpoints) (a : String)
    (s : Service) (err : RErr)
    (h : (reconcileEndpoints st a s).2 = Except.error err) :
    (∃ x y, err = RErr.endpointsNotFound x y) ∨ err = RErr.badLBAddress a := by
  match hs : splitDots a with
  | [] =>
    simp [reconcileEndpoints, hs] at h
    exact Or.inr h.symm
  | [x] =>
    simp [reconcileEndpoints, hs] at h
    exact Or.inr h.symm
  | name :: ns2 :: t =>
    cases hfind : findEp st ns2 name with
    | none =>
      simp [reconcileEndpoints, hs, hfind] at h
      exact Or.inl ⟨ns2, name, h.symm⟩
    | some ingEp =>
      cases hloc : findEp st s.meta.ns s.meta.name with
      | none => simp [reconcileEndpoints, hs, hfind, hloc] at h
      | some localEp =>
        by_cases hsub : localEp.subsets = MakeEndpointsSubsets ingEp
        · simp [reconcileEndpoints, hs, hfind, hloc, hsub] at h
        · simp [reconcileEndpoints, hs, hfind, hloc, hsub] at h

theorem reconcilePlaceholderServiceSpec_error_shape (st : List Service) (a : String)
    (s : Service) (err : RErr)
    (h : (reconcilePlaceholderServiceSpec st a s).2 = Except.error err) :
    (∃ x y, err = RErr.serviceNotFound x y) ∨ err = RErr.badLBAddress a := by
  match hs : splitDots a with
  | [] =>
    simp [reconcilePlaceholderServiceSpec, hs] at h
    exact Or.inr h.symm
  | [x] =>
    simp [reconcilePlaceholderServiceSpec, hs] at h
    exact Or.inr h.symm
  | name :: ns2 :: t =>
    cases hfind : findSvc st ns2 name with
    | none =>
      simp [reconcilePlaceholderServiceSpec, hs, hfind] at h
      exact Or.inl ⟨ns2, name, h.symm⟩
    | some ingService =>
      by_cases hspec : s.spec =
          { ingService.spec with type := "ClusterIP", sessionAffinity := "None" }
      · simp [reconcilePlaceholderServiceSpec, hs, hfind, hspec] at h
      · simp [reconcilePlaceholderServiceSpec, hs, hfind, hspec] at h

theorem updateBranch_error_shape (ep : List Endpoints) (sv : List Service)
    (s : Service) (b : LoadBalancerIngressStatus) (err : RErr)
    (h : (updateBranch ep sv s b).2 = Except.error err) :
    (∃ x y, err = RErr.endpointsNotFound x y) ∨
    (∃ x y, err = RErr.serviceNotFound x y) ∨
    (∃ x, err = RErr.badLBAddress x) := by
  by_cases h1 : b.domainInternal = ""
  · by_cases h2 : b.domain = ""
    · simp [updateBranch, h1, h2] at h
    · cases hre : (reconcileEndpoints ep b.domain s).2 with
      | error e =>
        simp [updateBranch, h1, h2, hre] at h
        subst h
        rcases reconcileEndpoints_error_shape ep b.domain s e hre with h3 | h3
        · exact Or.inl h3
        · exact Or.inr (Or.inr ⟨b.domain, h3⟩)
      | ok u =>
        cases hrs : (reconcilePlaceholderServiceSpec sv b.domain s).2 with
        | error e =>
          simp [updateBranch, h1, h2, hre, hrs] at h
          subst h
          rcases reconcilePlaceholderServiceSpec_error_shape sv b.domain s e hrs
            with h3 | h3
          · exact Or.inr (Or.inl h3)
          · exact Or.inr (Or.inr ⟨b.domain, h3⟩)
        | ok u2 => simp [updateBranch, h1, h2, hre, hrs] at h
  · cases hre : (reconcileEndpoints ep b.domainInternal s).2 with
    | error e =>
      simp [updateBranch, h1, hre] at h
      subst h
      rcases reconcileEndpoints_error_shape ep b.domainInternal s e hre with h3 | h3
      · exact Or.inl h3
      · exact Or.inr (Or.inr ⟨b.domainInternal, h3⟩)
    | ok u =>
      cases hrs : (reconcilePlaceholderServiceSpec sv b.domainInternal s).2 with
      | error e =>
        simp [updateBranch, h1, hre, hrs] at h
        subst h
        rcases reconcilePlaceholderServiceSpec_error_shape sv b.domainInternal s e hrs
          with h3 | h3
        · exact Or.inr (Or.inl h3)
        · exact Or.inr (Or.inr ⟨b.domainInternal, h3⟩)
      | ok u2 => simp [updateBranch, h1, hre, hrs] at h

theorem updatePlaceholderServices_mto (ep : List Endpoints) (sv : List Service)
    (ing : Ingress) :
    ∀ (services : List Service) (ws : List Write) (nm : String),
      updatePlaceholderServices ep sv ing services
        = (ws, Except.error (RErr.moreThanOneIngress nm)) →
      ws = [] ∧ ∃ s ∈ services, ∃ l, selectLoadBalancer ing s = some l ∧
        2 ≤ l.ingress.length
  | [], ws, nm, h => by simp [updatePlaceholderServices] at h
  | service :: rest, ws, nm, h => by
    cases hsel : selectLoadBalancer ing service with
    | none => simp [updatePlaceholderServices, hsel] at h
    | some lb =>
      match hlb : lb.ingress with
      | [] => simp [updatePlaceholderServices, hsel, hlb] at h
      | [balancer] =>
        cases hr : (updateBranch ep sv service balancer).2 with
        | error e =>
          simp [updatePlaceholderServices, hsel, hlb, hr] at h
          rcases h with ⟨hws, he⟩
          rcases updateBranch_error_shape ep sv service balancer e hr with
            ⟨x, y, hx⟩ | ⟨x, y, hx⟩ | ⟨x, hx⟩ <;> (rw [hx] at he; simp at he)
        | ok u =>
          cases hrest : updatePlaceholderServices ep sv ing rest with
          | mk ws' res' =>
            simp [updatePlaceholderServices, hsel, hlb, hr, hrest] at h
            rcases h with ⟨hws, hres⟩
            rcases updatePlaceholderServices_mto ep sv ing rest ws' nm
              (by rw [hrest, hres]) with ⟨hws0, s', hmem, l', hsel', hlen⟩
            have huniq := selectLoadBalancer_unique ing service s' lb l' hsel hsel'
            rw [← huniq, hlb] at hlen
            simp at hlen
      | b1 :: b2 :: bs =>
        simp [updatePlaceholderServices, hsel, hlb] at h
        rcases h with ⟨hws, hnm⟩
        refine ⟨hws, service, List.mem_cons_self _ _, lb, hsel, ?_⟩
        rw [hlb]
        simp

/-- C4 (amended): whenever updatePlaceholderServices returns the
more-than-one-ingress unsupported-configuration error, no endpoint-mirror
write (indeed no write at all) has been performed in that pass. The original
claim's converse direction fails: see the counterexample, where an earlier
service's selected load-balancer status is absent so the function returns
success early although another service's selected status reports two
admitted addresses of the same kind. -/
theorem C4_no_writes_on_multiple_ingress :
    ∀ (ep : List Endpoints) (sv : List Service) (ing : Ingress)
      (services : List Service) (ws : List Write) (nm : String),
      updatePlaceholderServices ep sv ing services
        = (ws, Except.error (RErr.moreThanOneIngress nm)) →
      ws = [] := by
  intro ep sv ing services ws nm h
  exact (updatePlaceholderServices_mto ep sv ing services ws nm h).1

/-- C4 witness: a private load balancer with two ingress entries concretely
produces the unsupported-configuration error with zero writes. -/
theorem C4_witness :
    updatePlaceholderServices [] [] c4ingPriv [{ meta := { name := "s", ns := "d" } }]
      = ([], Except.error (RErr.moreThanOneIngress "i")) ∧ ([] : List Write) = [] :=
  ⟨by decide,
   C4_no_writes_on_multiple_ingress [] [] c4ingPriv
     [{ meta := { name := "s", ns := "d" } }] [] "i" (by decide)⟩

/-- C4 counterexample: the public load-balancer status reports two admitted
addresses of the same kind, and the non-local service selects exactly that
status, yet the pass ends in success with no unsupported-configuration error
(and no write), because the first service is cluster-local, its selected
(private) status is absent, and the code returns success early. -/
theorem C4_counterexample :
    updatePlaceholderServices [] [] c4ingPub [c4svcLocal, c4svcPublic]
      = ([], Except.ok ()) ∧
    selectLoadBalancer c4ingPub c4svcPublic = some c4pubLB ∧
    c4pubLB.ingress.length = 2 := by decide

theorem getVisRows_char (cfg : Config) (dv : String) (services : List Service)
    (rn : String) :
    ∀ (tts : List String) (m : List (String × String)) (tt v : String),
      getVisRows cfg dv services rn tts = Except.ok m → (tt, v) ∈ m →
      ∃ h, HostnameFromTemplate cfg rn tt = Except.ok h ∧
        v = (match services.find? (fun s => decide (s.meta.name = h)) with
             | some svc => visibility svc.meta.labels
             | none => dv)
  | [], m, tt, v, hok, hmem => by
    simp [getVisRows] at hok
    subst hok
    simp at hmem
  | tt0 :: rest, m, tt, v, hok, hmem => by
    cases hh : HostnameFromTemplate cfg rn tt0 with
    | error e => simp [getVisRows, hh] at hok
    | ok hostname =>
      cases hrest : getVisRows cfg dv services rn rest with
      | error e => simp [getVisRows, hh, hrest] at hok
      | ok m' =>
        simp [getVisRows, hh, hrest] at hok
        subst hok
        rcases List.mem_cons.mp hmem with heq | hmem'
        · have htt : tt = tt0 := congrArg Prod.fst heq
          have hv : v = (match services.find? (fun s => decide (s.meta.name = hostname)) with
                         | some svc => visibility svc.meta.labels
                         | none => dv) := congrArg Prod.snd heq
          subst htt
          exact ⟨hostname, hh, hv⟩
        · exact getVisRows_char cfg dv services rn rest m' tt v hrest hmem'

/-- C8 (amended): each traffic target's resolved visibility is the realm of
the existing placeholder Service bearing the target's hostname when one
exists — the placeholder's visibility label, or the realm "default" when it
carries none — and otherwise the Route-level realm (the Route's visibility
label, or "default" when absent). In particular an existing placeholder
overrides the Route-level realm even when it carries no explicit visibility
label, and the override affects only its own target. -/
theorem C8_visibility_resolution :
    ∀ (cfg : Config) (store : List Service) (route : Route)
      (m : List (String × String)) (tt v : String),
      GetVisibility cfg store route = Except.ok m → (tt, v) ∈ m →
      ∃ h, HostnameFromTemplate cfg route.meta.name tt = Except.ok h ∧
        v = (match (getServices store route).find?
               (fun s => decide (s.meta.name = h)) with
             | some svc => visibility svc.meta.labels
             | none => visibility route.meta.labels) ∧
        (lookupStr route.meta.labels VisibilityLabelKey = none →
          visibility route.meta.labels = "default") := by
  intro cfg store route m tt v hok hmem
  rcases getVisRows_char cfg (visibility route.meta.labels) (getServices store route)
    route.meta.name (trafficNames route) m tt v hok hmem with ⟨h, hh, hv⟩
  refine ⟨h, hh, hv, ?_⟩
  intro hnone
  simp [visibility, mapIdx, hnone]

/-- C8 witness: with a Route in realm "myrealm" and a placeholder for the
default target labeled "other", the resolved value for the default target is
characterized by the theorem at the concrete run. -/
theorem C8_witness :
    ∃ h, HostnameFromTemplate c8cfg c8route.meta.name "" = Except.ok h ∧
      "other" = (match (getServices c8store c8route).find?
               (fun s => decide (s.meta.name = h)) with
             | some svc => visibility svc.meta.labels
             | none => visibility c8route.meta.labels) ∧
      (lookupStr c8route.meta.labels VisibilityLabelKey = none →
        visibility c8route.meta.labels = "default") :=
  C8_visibility_resolution c8cfg c8store c8route [("", "other")] "" "other"
    (by decide) (by decide)

/-- C8 counterexample: the Route is in realm "myrealm" and a placeholder for
the default target exists without any explicit visibility label, yet
GetVisibility resolves the target to "default", not to the Route-level
realm — the claim that an existing placeholder only overrides the default
when it carries an explicit visibility label is false on this code. -/
theorem C8_counterexample :
    GetVisibility c8cfg c8storeNoLabel c8route = Except.ok [("", "default")] ∧
    visibility c8route.meta.labels = "myrealm" ∧ "default" ≠ "myrealm" := by decide

theorem psLoop_violation (cfg : Config) (route : Route) (store : List Service) :
    ∀ (names : List String) (ws : List Write) (acc : List Service)
      (created : List String),
      (∀ w ∈ ws, ∃ a b, w = Write.createService a b) →
      (∀ t ∈ names, ∃ n, HostnameFromTemplate cfg route.meta.name t = Except.ok n) →
      (∃ t ∈ names, ∃ n svc,
        HostnameFromTemplate cfg route.meta.name t = Except.ok n ∧
        findSvc store route.meta.ns n = some svc ∧
        IsControlledBy svc route = false) →
      ∃ m ws', psLoop cfg route store names ws acc created
          = { writes := ws', mark := some m, res := Except.error (RErr.notOwned m) } ∧
        ∀ w ∈ ws', ∃ a b, w = Write.createService a b
  | [], ws, acc, created, hws, hres, hviol => by
    rcases hviol with ⟨t, ht, _⟩
    simp at ht
  | name :: rest, ws, acc, created, hws, hres, hviol => by
    rcases hres name (List.mem_cons_self _ _) with ⟨n0, hn0⟩
    have hmk : MakeK8sPlaceholderService cfg route name
        = Except.ok (mkPlaceholder route n0) := by
      simp [MakeK8sPlaceholderService, hn0]
    cases hfind : findSvc store route.meta.ns n0 with
    | none =>
      have hviol' : ∃ t ∈ rest, ∃ n svc,
          HostnameFromTemplate cfg route.meta.name t = Except.ok n ∧
          findSvc store route.meta.ns n = some svc ∧
          IsControlledBy svc route = false := by
        rcases hviol with ⟨t, ht, n, svc, htn, htf, hto⟩
        rcases List.mem_cons.mp ht with heq | htr
        · subst heq
          rw [hn0] at htn
          injection htn with hnn
          subst hnn
          rw [hfind] at htf
          cases htf
        · exact ⟨t, htr, n, svc, htn, htf, hto⟩
      have hstep : psLoop cfg route store (name :: rest) ws acc created
          = psLoop cfg route store rest
              (ws ++ [Write.createService route.meta.ns n0])
              (acc ++ [mkPlaceholder route n0]) (created ++ [n0]) := by
        simp [psLoop, hmk, hfind, mkPlaceholder]
      rw [hstep]
      refine psLoop_violation cfg route store rest _ _ _ ?_ ?_ hviol'
      · intro w hw
        rcases List.mem_append.mp hw with hw | hw
        · exact hws w hw
        · simp at hw
          exact ⟨route.meta.ns, n0, hw⟩
      · exact fun t ht => hres t (List.mem_cons_of_mem _ ht)
    | some svc0 =>
      by_cases hown : IsControlledBy svc0 route = true
      · have hviol' : ∃ t ∈ rest, ∃ n svc,
            HostnameFromTemplate cfg route.meta.name t = Except.ok n ∧
            findSvc store route.meta.ns n = some svc ∧
            IsControlledBy svc route = false := by
          rcases hviol with ⟨t, ht, n, svc, htn, htf, hto⟩
          rcases List.mem_cons.mp ht with heq | htr
          · subst heq
            rw [hn0] at htn
            injection htn with hnn
            subst hnn
            rw [hfind] at htf
            injection htf with hsvc
            subst hsvc
            rw [hown] at hto
            cases hto
          · exact ⟨t, htr, n, svc, htn, htf, hto⟩
        have hstep : psLoop cfg route store (name :: rest) ws acc created
            = psLoop cfg route store rest ws (acc ++ [svc0]) (created ++ [n0]) := by
          simp [psLoop, hmk, hfind, hown, mkPlaceholder]
        rw [hstep]
        exact psLoop_violation cfg route store rest _ _ _ hws
          (fun t ht => hres t (List.mem_cons_of_mem _ ht)) hviol'
      · refine ⟨n0, ws, ?_, hws⟩
        simp [psLoop, hmk, hfind, hown, mkPlaceholder]

/-- C3 (amended): an existing placeholder Service whose name is among the
desired target names and whose controller is not the reconciled Route makes
reconcilePlaceholderServices mark the ownership violation on the Route's
status and return an error, and no Service is updated or deleted in that
pass (its writes are creations only). The original claim's scope over every
foreign-parent labeled object fails: see the counterexample, where a
foreign-owned Service whose name is not desired is deleted with no
ownership check, no mark and no error. -/
theorem C3_ownership_violation :
    ∀ (cfg : Config) (route : Route) (store : List Service) (targets : List String),
      (∀ t ∈ setList targets, ∃ n,
        HostnameFromTemplate cfg route.meta.name t = Except.ok n) →
      (∃ t ∈ setList targets, ∃ n svc,
        HostnameFromTemplate cfg route.meta.name t = Except.ok n ∧
        findSvc store route.meta.ns n = some svc ∧
        IsControlledBy svc route = false) →
      ∃ m, (reconcilePlaceholderServices cfg route store targets).mark = some m ∧
        (reconcilePlaceholderServices cfg route store targets).res
          = Except.error (RErr.notOwned m) ∧
        ∀ a b, Write.deleteService a b
            ∉ (reconcilePlaceholderServices cfg route store targets).writes ∧
          Write.updateService a b
            ∉ (reconcilePlaceholderServices cfg route store targets).writes := by
  intro cfg route store targets hres hviol
  rcases psLoop_violation cfg route store (setList targets) [] [] []
    (by simp) hres hviol with ⟨m, ws', heq, hcreates⟩
  rw [reconcilePlaceholderServices, heq]
  refine ⟨m, rfl, rfl, ?_⟩
  intro a b
  constructor
  · intro hmem
    rcases hcreates _ hmem with ⟨x, y, hxy⟩
    cases hxy
  · intro hmem
    rcases hcreates _ hmem with ⟨x, y, hxy⟩
    cases hxy

/-- C3 witness: a foreign-owned Service bearing the desired placeholder name
"r" makes the concrete pass mark and fail with no delete or update. -/
theorem C3_witness :
    ∃ m, (reconcilePlaceholderServices c3cfg c3route [c3svcForeign] [""]).mark = some m ∧
      (reconcilePlaceholderServices c3cfg c3route [c3svcForeign] [""]).res
        = Except.error (RErr.notOwned m) ∧
      ∀ a b, Write.deleteService a b
          ∉ (reconcilePlaceholderServices c3cfg c3route [c3svcForeign] [""]).writes ∧
        Write.updateService a b
          ∉ (reconcilePlaceholderServices c3cfg c3route [c3svcForeign] [""]).writes := by
  refine C3_ownership_violation c3cfg c3route [c3svcForeign] [""] ?_ ?_
  · intro t ht
    have hs : setList [""] = [""] := by decide
    rw [hs] at ht
    simp at ht
    subst ht
    exact ⟨"r", by decide⟩
  · refine ⟨"", ?_, "r", c3svcForeign, by decide, by decide, by decide⟩
    have hs : setList [""] = [""] := by decide
    rw [hs]
    simp

/-- C3 counterexample: a Service labeled with the Route but controlled by
another owner, whose name is not among the desired targets, is deleted by
the pass without any ownership check: the pass succeeds, marks nothing, and
its writes delete the foreign object — contradicting the claim that a
foreign-parent placeholder triggers a status mark and an error and is never
deleted. -/
theorem C3_counterexample :
    IsControlledBy c3svcStale c3route = false ∧
    c3svcStale ∈ getServices [c3svcOwned, c3svcStale] c3route ∧
    Write.deleteService "d" "stale"
      ∈ (reconcilePlaceholderServices c3cfg c3route [c3svcOwned, c3svcStale] [""]).writes ∧
    (reconcilePlaceholderServices c3cfg c3route [c3svcOwned, c3svcStale] [""]).mark
      = none ∧
    (reconcilePlaceholderServices c3cfg c3route [c3svcOwned, c3svcStale] [""]).res
      = Except.ok [c3svcOwned] := by decide

theorem mem_insertSorted (x a : String) : ∀ l : List String,
    a ∈ insertSorted x l ↔ a = x ∨ a ∈ l
  | [] => by simp [insertSorted]
  | y :: ys => by
    by_cases h : strLeB x y = true
    · simp [insertSorted, h]
    · simp [insertSorted, h, mem_insertSorted x a ys]
      tauto

theorem mem_sortStrings (a : String) : ∀ l : List String,
    a ∈ sortStrings l ↔ a ∈ l
  | [] => Iff.rfl
  | x :: xs => by
    have hstep : sortStrings (x :: xs) = insertSorted x (sortStrings xs) := rfl
    rw [hstep, mem_insertSorted, mem_sortStrings a xs]
    simp

theorem mem_deleteServices (ns a b : String) (l : List String) :
    Write.deleteService a b ∈ deleteServices ns l ↔ a = ns ∧ b ∈ l := by
  simp only [deleteServices, List.mem_map]
  constructor
  · rintro ⟨n, hn, heq⟩
    injection heq with h1 h2
    exact ⟨h1.symm, h2 ▸ (mem_sortStrings n l).mp hn⟩
  · rintro ⟨rfl, hb⟩
    exact ⟨b, (mem_sortStrings b l).mpr hb, rfl⟩

theorem mem_mirrorCascade (ws : List Write) (a b : String) :
    Write.deleteEndpoints a b ∈ mirrorCascade ws ↔ Write.deleteService a b ∈ ws := by
  simp only [mirrorCascade, List.mem_filterMap]
  constructor
  · rintro ⟨w, hw, hf⟩
    cases w <;> simp at hf
    rcases hf with ⟨rfl, rfl⟩
    exact hw
  · intro hw
    exact ⟨Write.deleteService a b, hw, rfl⟩

theorem findSvc_map_ph (route : Route) (hfun : String → String) :
    ∀ (l : List String) (x : String),
      findSvc (l.map (fun t => mkPlaceholder route (hfun t))) route.meta.ns x
        = (l.find? (fun t => decide (hfun t = x))).map
            (fun t => mkPlaceholder route (hfun t))
  | [], x => by simp [findSvc]
  | t :: ts, x => by
    have ih := findSvc_map_ph route hfun ts x
    simp only [findSvc] at ih ⊢
    rw [List.map_cons]
    by_cases h : hfun t = x
    · rw [List.find?_cons_of_pos _ (by simp [mkPlaceholder, h]),
        List.find?_cons_of_pos _ (by simp [h])]
      simp
    · rw [List.find?_cons_of_neg _ (by simp [mkPlaceholder, h]),
        List.find?_cons_of_neg _ (by simp [h])]
      exact ih

theorem getServices_map_ph (route : Route) (hfun : String → String) (l : List String) :
    getServices (l.map (fun t => mkPlaceholder route (hfun t))) route
      = l.map (fun t => mkPlaceholder route (hfun t)) := by
  apply List.filter_eq_self.mpr
  intro s hs
  rcases List.mem_map.mp hs with ⟨t, ht, rfl⟩
  simp [mkPlaceholder, lookupStr]

theorem getNames_map_ph (route : Route) (hfun : String → String) (l : List String) :
    GetNames (l.map (fun t => mkPlaceholder route (hfun t))) = l.map hfun := by
  simp only [GetNames, List.map_map]
  rfl

theorem mem_pruneNames (store : List Service) (route : Route) (created : List String)
    (n : String) :
    n ∈ pruneNames store route created ↔
      n ∈ GetNames (getServices store route) ∧ n ∉ created := by
  simp [pruneNames, List.mem_filter, List.mem_dedup]

theorem psLoop_complete (cfg : Config) (route : Route) (store : List Service)
    (hfun : String → String) :
    ∀ (names : List String) (ws : List Write) (acc : List Service)
      (created : List String),
      (∀ t ∈ names, HostnameFromTemplate cfg route.meta.name t = Except.ok (hfun t)) →
      (∀ t ∈ names, findSvc store route.meta.ns (hfun t) = none ∨
        ∃ svc, findSvc store route.meta.ns (hfun t) = some svc ∧
          IsControlledBy svc route = true) →
      ∃ creates acc',
        psLoop cfg route store names ws acc created
          = { writes := ws ++ (creates ++ deleteServices route.meta.ns
                (pruneNames store route (created ++ names.map hfun))),
              mark := none, res := Except.ok acc' } ∧
        ∀ w ∈ creates, ∃ b, w = Write.createService route.meta.ns b
  | [], ws, acc, created, hres, hown => by
    refine ⟨[], acc, ?_, by simp⟩
    simp [psLoop]
  | name :: rest, ws, acc, created, hres, hown => by
    have hn0 := hres name (List.mem_cons_self _ _)
    have hmk : MakeK8sPlaceholderService cfg route name
        = Except.ok (mkPlaceholder route (hfun name)) := by
      simp [MakeK8sPlaceholderService, hn0]
    rcases hown name (List.mem_cons_self _ _) with hf | ⟨svc, hf, hctl⟩
    · have hstep : psLoop cfg route store (name :: rest) ws acc created
          = psLoop cfg route store rest
              (ws ++ [Write.createService route.meta.ns (hfun name)])
              (acc ++ [mkPlaceholder route (hfun name)]) (created ++ [hfun name]) := by
        simp [psLoop, hmk, hf, mkPlaceholder]
      rcases psLoop_complete cfg route store hfun rest
          (ws ++ [Write.createService route.meta.ns (hfun name)])
          (acc ++ [mkPlaceholder route (hfun name)]) (created ++ [hfun name])
          (fun t ht => hres t (List.mem_cons_of_mem _ ht))
          (fun t ht => hown t (List.mem_cons_of_mem _ ht))
        with ⟨creates', acc', heq, hcre⟩
      refine ⟨Write.createService route.meta.ns (hfun name) :: creates', acc', ?_, ?_⟩
      · rw [hstep, heq]
        simp [List.append_assoc]
      · intro w hw
        rcases List.mem_cons.mp hw with rfl | hw
        · exact ⟨hfun name, rfl⟩
        · exact hcre w hw
    · have hstep : psLoop cfg route store (name :: rest) ws acc created
          = psLoop cfg route store rest ws (acc ++ [svc]) (created ++ [hfun name]) := by
        simp [psLoop, hmk, hf, hctl, mkPlaceholder]
      rcases psLoop_complete cfg route store hfun rest ws (acc ++ [svc])
          (created ++ [hfun name])
          (fun t ht => hres t (List.mem_cons_of_mem _ ht))
          (fun t ht => hown t (List.mem_cons_of_mem _ ht))
        with ⟨creates', acc', heq, hcre⟩
      refine ⟨creates', acc', ?_, hcre⟩
      rw [hstep, heq]
      simp [List.append_assoc]

/-- C7: starting from a store holding exactly the placeholders of the
previous pass's targets (all owned by the Route), a pass over the new target
set succeeds and its Service deletions are exactly the hostnames of the
removed targets — every removed target's placeholder (and, by the cascade,
its endpoint mirror) is deleted, no still-desired target's objects are
deleted, and nothing else is deleted. -/
theorem C7_removed_targets_pruned :
    ∀ (cfg : Config) (route : Route) (oldTags newTags : List String)
      (hfun : String → String) (store : List Service),
      (∀ t, t ∈ setList oldTags ∨ t ∈ setList newTags →
        HostnameFromTemplate cfg route.meta.name t = Except.ok (hfun t)) →
      (∀ t1 t2, (t1 ∈ setList oldTags ∨ t1 ∈ setList newTags) →
        (t2 ∈ setList oldTags ∨ t2 ∈ setList newTags) →
        hfun t1 = hfun t2 → t1 = t2) →
      store = (setList oldTags).map (fun t => mkPlaceholder route (hfun t)) →
      ((∃ services, (reconcilePlaceholderServices cfg route store newTags).res
          = Except.ok services) ∧
       (∀ t, t ∈ setList oldTags → t ∉ setList newTags →
         Write.deleteService route.meta.ns (hfun t)
           ∈ (reconcilePlaceholderServices cfg route store newTags).writes ∧
         Write.deleteEndpoints route.meta.ns (hfun t)
           ∈ mirrorCascade (reconcilePlaceholderServices cfg route store newTags).writes) ∧
       (∀ t, t ∈ setList newTags →
         Write.deleteService route.meta.ns (hfun t)
           ∉ (reconcilePlaceholderServices cfg route store newTags).writes ∧
         Write.deleteEndpoints route.meta.ns (hfun t)
           ∉ mirrorCascade (reconcilePlaceholderServices cfg route store newTags).writes) ∧
       (∀ a b, Write.deleteService a b
           ∈ (reconcilePlaceholderServices cfg route store newTags).writes →
         a = route.meta.ns ∧ ∃ t, t ∈ setList oldTags ∧ t ∉ setList newTags ∧
           b = hfun t)) := by
  intro cfg route oldTags newTags hfun store hres hinj hstore
  subst hstore
  have hown : ∀ t ∈ setList newTags,
      findSvc ((setList oldTags).map (fun t => mkPlaceholder route (hfun t)))
        route.meta.ns (hfun t) = none ∨
      ∃ svc, findSvc ((setList oldTags).map (fun t => mkPlaceholder route (hfun t)))
          route.meta.ns (hfun t) = some svc ∧ IsControlledBy svc route = true := by
    intro t ht
    rw [findSvc_map_ph]
    cases hfind : (setList oldTags).find? (fun t' => decide (hfun t' = hfun t)) with
    | none => exact Or.inl rfl
    | some t' =>
      exact Or.inr ⟨mkPlaceholder route (hfun t'), rfl,
        by simp [IsControlledBy, mkPlaceholder]⟩
  rcases psLoop_complete cfg route
      ((setList oldTags).map (fun t => mkPlaceholder route (hfun t))) hfun
      (setList newTags) [] [] []
      (fun t ht => hres t (Or.inr ht)) hown with ⟨creates, services, heq, hcre⟩
  have hru : reconcilePlaceholderServices cfg route
      ((setList oldTags).map (fun t => mkPlaceholder route (hfun t))) newTags
      = psLoop cfg route
        ((setList oldTags).map (fun t => mkPlaceholder route (hfun t)))
        (setList newTags) [] [] [] := rfl
  have hwr : (reconcilePlaceholderServices cfg route
        ((setList oldTags).map (fun t => mkPlaceholder route (hfun t))) newTags).writes
      = creates ++ deleteServices route.meta.ns
          (pruneNames ((setList oldTags).map (fun t => mkPlaceholder route (hfun t)))
            route ((setList newTags).map hfun)) := by
    rw [hru, heq]
    simp
  have hresq : (reconcilePlaceholderServices cfg route
        ((setList oldTags).map (fun t => mkPlaceholder route (hfun t))) newTags).res
      = Except.ok services := by
    rw [hru, heq]
  have hGN : GetNames (getServices
        ((setList oldTags).map (fun t => mkPlaceholder route (hfun t))) route)
      = (setList oldTags).map hfun := by
    rw [getServices_map_ph, getNames_map_ph]
  have hdelmem : ∀ a b, Write.deleteService a b
      ∈ (reconcilePlaceholderServices cfg route
          ((setList oldTags).map (fun t => mkPlaceholder route (hfun t))) newTags).writes
      ↔ (a = route.meta.ns ∧ b ∈ (setList oldTags).map hfun ∧
          b ∉ (setList newTags).map hfun) := by
    intro a b
    rw [hwr, List.mem_append]
    constructor
    · rintro (h | h)
      · rcases hcre _ h with ⟨b', hb'⟩
        simp at hb'
      · rcases (mem_deleteServices _ _ _ _).mp h with ⟨ha, hb⟩
        have hpm := (mem_pruneNames _ _ _ _).mp hb
        rw [hGN] at hpm
        exact ⟨ha, hpm.1, hpm.2⟩
    · rintro ⟨rfl, h1, h2⟩
      refine Or.inr ((mem_deleteServices _ _ _ _).mpr ⟨rfl, ?_⟩)
      rw [mem_pruneNames, hGN]
      exact ⟨h1, h2⟩
  refine ⟨⟨services, hresq⟩, ?_, ?_, ?_⟩
  · intro t htold htnew
    have hmemdel : Write.deleteService route.meta.ns (hfun t)
        ∈ (reconcilePlaceholderServices cfg route
            ((setList oldTags).map (fun t => mkPlaceholder route (hfun t)))
            newTags).writes := by
      rw [hdelmem]
      refine ⟨rfl, List.mem_map.mpr ⟨t, htold, rfl⟩, ?_⟩
      intro hmem
      rcases List.mem_map.mp hmem with ⟨t', ht', heq'⟩
      have ht12 := hinj t' t (Or.inr ht') (Or.inl htold) heq'
      exact htnew (ht12 ▸ ht')
    exact ⟨hmemdel, (mem_mirrorCascade _ _ _).mpr hmemdel⟩
  · intro t htnew
    have hnot : Write.deleteService route.meta.ns (hfun t)
        ∉ (reconcilePlaceholderServices cfg route
            ((setList oldTags).map (fun t => mkPlaceholder route (hfun t)))
            newTags).writes := by
      rw [hdelmem]
      rintro ⟨-, -, h2⟩
      exact h2 (List.mem_map.mpr ⟨t, htnew, rfl⟩)
    exact ⟨hnot, fun hm => hnot ((mem_mirrorCascade _ _ _).mp hm)⟩
  · intro a b hmem
    rcases (hdelmem a b).mp hmem with ⟨ha, h1, h2⟩
    rcases List.mem_map.mp h1 with ⟨t, ht, rfl⟩
    refine ⟨ha, t, ht, ?_, rfl⟩
    intro htnew
    exact h2 (List.mem_map.mpr ⟨t, htnew, rfl⟩)

/-- C7 witness: with previous targets `""` and `"x"` and new targets `""`,
the pass deletes exactly the removed target's placeholder (hostname "x-r")
and its mirror, and does not delete the kept target's placeholder. -/
theorem C7_witness :
    Write.deleteService c7route.meta.ns (c7h "x")
      ∈ (reconcilePlaceholderServices c7cfg c7route c7store [""]).writes ∧
    Write.deleteEndpoints c7route.meta.ns (c7h "x")
      ∈ mirrorCascade (reconcilePlaceholderServices c7cfg c7route c7store [""]).writes ∧
    Write.deleteService c7route.meta.ns (c7h "")
      ∉ (reconcilePlaceholderServices c7cfg c7route c7store [""]).writes := by
  have e1 : setList ["", "x"] = ["", "x"] := by decide
  have e2 : setList [""] = [""] := by decide
  have hmain := C7_removed_targets_pruned c7cfg c7route ["", "x"] [""] c7h c7store
    (by
      intro t ht
      rw [e1, e2] at ht
      simp at ht
      rcases ht with (rfl | rfl) | rfl <;> decide)
    (by
      intro t1 t2 h1 h2 heq
      rw [e1, e2] at h1 h2
      simp at h1 h2
      rcases h1 with (rfl | rfl) | rfl <;> rcases h2 with (rfl | rfl) | rfl <;>
        first
          | rfl
          | (revert heq; decide))
    rfl
  have hx : "x" ∈ setList ["", "x"] := by decide
  have hnx : "x" ∉ setList [""] := by decide
  have h0 : "" ∈ setList [""] := by decide
  exact ⟨(hmain.2.1 "x" hx hnx).1, (hmain.2.1 "x" hx hnx).2, (hmain.2.2.1 "" h0).1⟩

/-- C6 witness: templates concretely referencing the undefined fields "Oops"
and "NNNamespace" make both resolutions fail with a templating error. -/
theorem C6_witness :
    (∃ f, HostnameFromTemplate c6cfg "test-name" "t"
      = Except.error (RErr.templating f)) ∧
    (∃ f, DomainNameFromTemplate { domainLister := [] } c6cfg
        { name := "m", ns := "default" } "test-name"
      = Except.error (RErr.templating f)) := by
  have h := C6_undefined_field_is_error c6cfg { domainLister := [] }
    { name := "m", ns := "default" } "test-name" "t"
  exact ⟨h.1 (by decide) ⟨"Oops", by decide, by decide⟩,
    h.2 (by decide) ⟨"NNNamespace", by decide, by decide⟩⟩
